import Mathlib

/-!
Shallow embedding of the nubedb discovery, bootstrap/join and FSM read
paths, translated from the Go sources (`discover/discover.go`, the fsm
`Get` method, the consensus `startConsensus` / `joinNodeToExistingConsensus`
functions and the REST `storeSet` / `storeDelete` handlers).

Effectful collaborators (the mDNS query results, the `IsLeader` RPC, the
`cluster.Execute` / `cluster.ConsensusJoin` calls, the badger transaction
and `json.Unmarshal`) are passed in as explicit inputs or oracles, the
standard shallow embedding of effects.
-/

namespace Nube

deriving instance DecidableEq for Except

/-- A single quote character, used to build error strings faithful to the
Go source without a literal quote inside a string. -/
def quo : String := String.singleton (Char.ofNat 39)

/-- Embeds `strings.Contains(s, pat)` via character lists. -/
def startsWithChars : List Char → List Char → Bool
  | [], _ => true
  | _ :: _, [] => false
  | p :: ps, c :: cs => p == c && startsWithChars ps cs

/-- Embeds `strings.Contains`: does `pat` occur as a contiguous substring
of `s`? -/
def hasSubChars (pat : List Char) : List Char → Bool
  | [] => startsWithChars pat []
  | c :: cs => startsWithChars pat (c :: cs) || hasSubChars pat cs

/-- Embeds Go `strings.Contains(s, pat)`. -/
def containsSubstr (s pat : String) : Bool :=
  hasSubChars pat.toList s.toList

/-- Embeds Go `strings.ToLower` (ASCII case folding suffices for the
error strings compared in the source). -/
def lowerStr (s : String) : String :=
  String.mk (s.toList.map Char.toLower)

/-- Modelled from the spec: `config.MakeConsensusAddr` is not under `src/`;
the spec says each node id maps deterministically to a consensus address
via a pure function of the id (hostname-based). -/
def MakeConsensusAddr (id : String) : String := id ++ ":3001"

/-- Modelled from the spec: `config.MakeGrpcAddress` is not under `src/`;
the spec says each node id maps deterministically to an RPC address via a
pure function of the id (hostname-based). -/
def MakeGrpcAddress (id : String) : String := id ++ ":3002"

/-- Modelled from the spec: `errorskit.Wrap` is not under `src/`; the spec
says transient errors are wrapped with context at each layer. -/
def wrapErr (e ctx : String) : String := ctx ++ ": " ++ e

/-- `ErrLeaderNotFound` from `discover.go`: the string
`couldn't find a leader`. -/
def ErrLeaderNotFound : String := "couldn" ++ quo ++ "t find a leader"

/-- Embeds `strings.ReplaceAll(host, ".", "")` from `SearchNodes`
(the pattern is the single character dot, so this is exactly the removal
of every dot). -/
def removeDots (host : String) : String :=
  String.mk (host.toList.filter (fun c => !(c == '.')))

/-- The per-attempt body of the `SearchNodes` scan loop: each reported
host has its dots removed and is inserted into the ordered set of hosts
(`hosts[host] = true` on the Go map, embedded as insertion-ordered
de-duplication). -/
def addHosts (hs : List String) (hostsQuery : List String) : List String :=
  hostsQuery.foldl
    (fun hs host =>
      let host := removeDots host
      if hs.contains host then hs else hs ++ [host])
    hs

/-- The `for i := 0; i < 3; i++` scan loop of `SearchNodes`: an erroring
`query()` logs, records `lastError` and continues; a successful one merges
its hosts. The three attempt results are the input list. -/
def searchNodesGo (hosts : List String) (lastError : Option String) :
    List (Except String (List String)) → List String × Option String
  | [] => (hosts, lastError)
  | .error e :: rest => searchNodesGo hosts (some e) rest
  | .ok hostsQuery :: rest => searchNodesGo (addHosts hosts hostsQuery) lastError rest

/-- Embeds `discover.SearchNodes`: scan the query attempts, then return
every discovered host other than `currentNode`, together with the last
query error (if any). -/
def SearchNodes (currentNode : String)
    (attempts : List (Except String (List String))) :
    List String × Option String :=
  let scan := searchNodesGo [] none attempts
  (scan.1.filter (fun host => !(currentNode == host)), scan.2)

/-- The `for _, node := range nodes` loop of `SearchLeader`, instrumented
with the list of gRPC addresses on which `cluster.IsLeader` is invoked.
The oracle returns `none` when the node cannot be contacted (the Go code
logs and continues), `some b` for an `IsLeader` answer `b`. -/
def searchLeaderLoop (isLeader : String → Option Bool) :
    List String → Except String String × List String
  | [] => (.error ErrLeaderNotFound, [])
  | node :: rest =>
    match isLeader (MakeGrpcAddress node) with
    | some true => (.ok node, [MakeGrpcAddress node])
    | some false =>
      let next := searchLeaderLoop isLeader rest
      (next.1, MakeGrpcAddress node :: next.2)
    | none =>
      let next := searchLeaderLoop isLeader rest
      (next.1, MakeGrpcAddress node :: next.2)

/-- Embeds `discover.SearchLeader`, instrumented with the list of
`IsLeader` RPC calls it makes: a `SearchNodes` error is returned at once
(no RPC is made); otherwise the loop returns the first discovered node
reporting leadership. -/
def SearchLeaderT (currentNode : String)
    (attempts : List (Except String (List String)))
    (isLeader : String → Option Bool) :
    Except String String × List String :=
  match (SearchNodes currentNode attempts).2 with
  | some e => (.error e, [])
  | none => searchLeaderLoop isLeader (SearchNodes currentNode attempts).1

/-- Embeds `discover.SearchLeader` (result only). -/
def SearchLeader (currentNode : String)
    (attempts : List (Except String (List String)))
    (isLeader : String → Option Bool) : Except String String :=
  (SearchLeaderT currentNode attempts isLeader).1

/-- A `raft.Server` as used by `startConsensus`: an id and a consensus
address. -/
structure RaftServer where
  id : String
  address : String
deriving DecidableEq, Repr

/-- Embeds the loop of `startConsensus` that builds the fixed bootstrap
configuration: `for i := 1; i <= 3; i++` appending
`{ID: fmt.Sprintf("node%v", i), Address: config.MakeConsensusAddr(id)}`. -/
def bootstrappingServers : List RaftServer :=
  ([1, 2, 3] : List Nat).foldl
    (fun acc i =>
      let id := "node" ++ toString i
      acc ++ [{ id := id, address := MakeConsensusAddr id }])
    []

/-- Embeds `isNodePresentInServers` from the consensus package. -/
def isNodePresentInServers (nodeID : String) (servers : List RaftServer) : Bool :=
  servers.any (fun server => nodeID == server.id)

/-- Observable calls made by the bootstrap/join path, used to state frame
properties (which effects `startConsensus` performs). -/
inductive NodeAction where
  | bootstrap (servers : List RaftServer)
  | searchLeader (nodeID : String)
  | consensusJoin (nodeID : String) (consensusAddr : String) (leaderGrpcAddr : String)
deriving DecidableEq, Repr

/-- The environment `startConsensus` runs in: the configuration already
known to the engine, the outcome of `BootstrapCluster` (`none` means no
error), the three mDNS query attempts, the `IsLeader` oracle for
discovery, and the outcome of `cluster.ConsensusJoin`. -/
structure ConsensusEnv where
  servers : List RaftServer
  bootstrapErr : Option String
  attempts : List (Except String (List String))
  isLeader : String → Option Bool
  joinResult : Except String Unit

/-- Embeds `joinNodeToExistingConsensus`: search for a leader via
discovery, then `cluster.ConsensusJoin(nodeID, MakeConsensusAddr(nodeID),
MakeGrpcAddress(leaderID))`; instrumented with the actions performed. -/
def joinNodeToExistingConsensus (env : ConsensusEnv) (nodeID : String) :
    Except String Unit × List NodeAction :=
  match SearchLeader nodeID env.attempts env.isLeader with
  | .error e => (.error e, [NodeAction.searchLeader nodeID])
  | .ok leaderID =>
    (env.joinResult,
     [NodeAction.searchLeader nodeID,
      NodeAction.consensusJoin nodeID (MakeConsensusAddr nodeID) (MakeGrpcAddress leaderID)])

/-- `errorskit.Wrap(errJoin, "while bootstrapping")` applied only to a
non-nil join error, as in `startConsensus`. -/
def wrapJoin : Except String Unit → Except String Unit
  | .ok _ => .ok ()
  | .error e => .error (wrapErr e "while bootstrapping")

/-- Embeds `startConsensus`: if the engine already knows at least 2
servers, return at once; otherwise call `BootstrapCluster` on the fixed
three-node configuration and interpret its outcome, falling through to
the explicit join path exactly as the Go control flow does. -/
def startConsensus (env : ConsensusEnv) (currentNodeID : String) :
    Except String Unit × List NodeAction :=
  if env.servers.length ≥ 2 then
    (.ok (), [])
  else
    match env.bootstrapErr with
    | some e =>
      if !(containsSubstr e "not a voter") then
        (.ok (), [NodeAction.bootstrap bootstrappingServers])
      else
        let join := joinNodeToExistingConsensus env currentNodeID
        (wrapJoin join.1, NodeAction.bootstrap bootstrappingServers :: join.2)
    | none =>
      if isNodePresentInServers currentNodeID bootstrappingServers then
        (.ok (), [NodeAction.bootstrap bootstrappingServers])
      else
        let join := joinNodeToExistingConsensus env currentNodeID
        (wrapJoin join.1, NodeAction.bootstrap bootstrappingServers :: join.2)

/-- Modelled from the spec: the `fsm.Payload` struct is not under `src/`;
the spec gives `{operation: SET|DELETE, key: string, value: bytes?}`. -/
structure Payload where
  key : String
  value : Option String
  operation : String
deriving DecidableEq, Repr

/-- The REST responses produced by the store handlers. -/
inductive ApiResponse where
  | badRequest (msg : String)
  | notFound (msg : String)
  | serverError (msg : String)
  | okResp (message : String) (data : String)
deriving DecidableEq, Repr

/-- Embeds the `storeSet` handler: parse the body, overwrite
`payload.Operation` with `"SET"`, submit to `cluster.Execute`. The second
component is the payload submitted to `cluster.Execute` (`none` when
nothing was submitted). -/
def storeSet (parsed : Except String Payload)
    (execute : Payload → Except String Unit) :
    ApiResponse × Option Payload :=
  match parsed with
  | .error e => (.badRequest e, none)
  | .ok payload =>
    let payload := { payload with operation := "SET" }
    match execute payload with
    | .error e => (.serverError e, some payload)
    | .ok _ => (.okResp "data persisted successfully" "", some payload)

/-- Embeds the `storeDelete` handler: parse the body, overwrite
`payload.Operation` with `"DELETE"`, submit to `cluster.Execute`, mapping
a "key not found" failure to 404. The second component is the payload
submitted to `cluster.Execute`. -/
def storeDelete (parsed : Except String Payload)
    (execute : Payload → Except String Unit) :
    ApiResponse × Option Payload :=
  match parsed with
  | .error e => (.badRequest e, none)
  | .ok payload =>
    let payload := { payload with operation := "DELETE" }
    match execute payload with
    | .error e =>
      if containsSubstr (lowerStr e) "key not found" then
        (.notFound ("key doesn" ++ quo ++ "t exist"), some payload)
      else
        (.serverError e, some payload)
    | .ok _ => (.okResp "data deleted successfully" "", some payload)

/-- The error badger returns for a missing key (`badger.ErrKeyNotFound`). -/
def badgerErrKeyNotFound : String := "Key not found"

/-- The local badger store a `DatabaseFSM` reads: key to stored value
bytes. -/
structure DatabaseFSM where
  db : String → Option (List UInt8)

/-- Embeds `DatabaseFSM.Get`: `txn.Get` fails on a missing key; the value
bytes are copied out; an empty value yields `no result for key`; otherwise
the bytes are unmarshalled (`json.Unmarshal`, an oracle here) and the
read transaction committed. -/
def DatabaseFSM.Get {α : Type} (dbFSM : DatabaseFSM)
    (unmarshal : List UInt8 → Except String α)
    (commit : Except String Unit) (k : String) : Except String α :=
  match dbFSM.db k with
  | none => .error badgerErrKeyNotFound
  | some dbResultValue =>
    if dbResultValue.length ≤ 0 then
      .error "no result for key"
    else
      match unmarshal dbResultValue with
      | .error e => .error (wrapErr e ("couldn" ++ quo ++ "t unmarshal get results from DB"))
      | .ok result =>
        match commit with
        | .error e => .error (wrapErr e ("couldn" ++ quo ++ "t commit transaction"))
        | .ok _ => .ok result


/-- Whether a query attempt succeeded (used to state which attempts
contribute hosts). -/
def isOkB {ε α : Type} : Except ε α → Bool
  | .ok _ => true
  | .error _ => false

/-! ## Lemmas about the discovery scan -/

theorem searchNodesGo_snd_allOk (l : List (Except String (List String)))
    (hs : List String) (le : Option String)
    (h : ∀ a ∈ l, isOkB a = true) :
    (searchNodesGo hs le l).2 = le := by
  induction l generalizing hs le with
  | nil => rfl
  | cons a rest ih =>
    cases a with
    | error e =>
      have he := h (Except.error e) (by simp)
      simp [isOkB] at he
    | ok q => exact ih (addHosts hs q) le (fun a ha => h a (by simp [ha]))

theorem searchNodesGo_snd_last (pre post : List (Except String (List String)))
    (e : String) (hs : List String) (le : Option String)
    (hpost : ∀ a ∈ post, isOkB a = true) :
    (searchNodesGo hs le (pre ++ .error e :: post)).2 = some e := by
  induction pre generalizing hs le with
  | nil => exact searchNodesGo_snd_allOk post hs (some e) hpost
  | cons a rest ih =>
    cases a with
    | error e2 => exact ih hs (some e2)
    | ok q => exact ih (addHosts hs q) le

theorem searchNodesGo_fst_filter (l : List (Except String (List String)))
    (hs : List String) (le le2 : Option String) :
    (searchNodesGo hs le l).1 = (searchNodesGo hs le2 (l.filter isOkB)).1 := by
  induction l generalizing hs le le2 with
  | nil => rfl
  | cons a rest ih =>
    cases a with
    | error e => simpa [isOkB] using ih hs (some e) le2
    | ok q => simpa [isOkB] using ih (addHosts hs q) le le2

theorem mem_addHosts (q : List String) (hs : List String) (h : String)
    (hm : h ∈ addHosts hs q) :
    h ∈ hs ∨ ∃ raw ∈ q, h = removeDots raw := by
  induction q generalizing hs with
  | nil => exact Or.inl hm
  | cons r rest ih =>
    have step : addHosts hs (r :: rest)
        = addHosts (if hs.contains (removeDots r) then hs else hs ++ [removeDots r]) rest := by
      simp [addHosts]
    rw [step] at hm
    rcases ih _ hm with hin | ⟨raw, hraw, hEq⟩
    · by_cases hc : hs.contains (removeDots r)
      · rw [if_pos hc] at hin
        exact Or.inl hin
      · rw [if_neg hc] at hin
        rcases List.mem_append.mp hin with hl | hr
        · exact Or.inl hl
        · exact Or.inr ⟨r, by simp, by simpa using hr⟩
    · exact Or.inr ⟨raw, by simp [hraw], hEq⟩

theorem mem_searchNodesGo (l : List (Except String (List String)))
    (hs : List String) (le : Option String) (h : String)
    (hm : h ∈ (searchNodesGo hs le l).1) :
    h ∈ hs ∨ ∃ q raw, Except.ok q ∈ l ∧ raw ∈ q ∧ h = removeDots raw := by
  induction l generalizing hs le with
  | nil => exact Or.inl hm
  | cons a rest ih =>
    cases a with
    | error e =>
      rcases ih hs (some e) hm with hin | ⟨q, raw, hq, hraw, hEq⟩
      · exact Or.inl hin
      · exact Or.inr ⟨q, raw, by simp [hq], hraw, hEq⟩
    | ok q0 =>
      rcases ih (addHosts hs q0) le hm with hin | ⟨q, raw, hq, hraw, hEq⟩
      · rcases mem_addHosts q0 hs h hin with hl | ⟨raw, hraw, hEq⟩
        · exact Or.inl hl
        · exact Or.inr ⟨q0, raw, by simp, hraw, hEq⟩
      · exact Or.inr ⟨q, raw, by simp [hq], hraw, hEq⟩

theorem removeDots_no_dot (raw : String) :
    ∀ c ∈ (removeDots raw).toList, c ≠ '.' := by
  intro c hc
  have : c ∈ raw.toList.filter (fun c => !(c == '.')) := hc
  have h2 := (List.mem_filter.mp this).2
  simpa using h2

theorem searchNodes_mem_ne (cn : String)
    (attempts : List (Except String (List String))) (h : String)
    (hm : h ∈ (SearchNodes cn attempts).1) : cn ≠ h := by
  simp only [SearchNodes] at hm
  have h2 := (List.mem_filter.mp hm).2
  simpa using h2

/-! ## Lemmas about the leader-search loop -/

theorem searchLeaderLoop_ok_mem (f : String → Option Bool)
    (nodes : List String) (id : String)
    (h : (searchLeaderLoop f nodes).1 = .ok id) : id ∈ nodes := by
  induction nodes with
  | nil => simp [searchLeaderLoop] at h
  | cons n rest ih =>
    cases hf : f (MakeGrpcAddress n) with
    | none =>
      simp only [searchLeaderLoop, hf] at h
      exact List.mem_cons_of_mem _ (ih h)
    | some b =>
      cases b with
      | false =>
        simp only [searchLeaderLoop, hf] at h
        exact List.mem_cons_of_mem _ (ih h)
      | true =>
        simp only [searchLeaderLoop, hf] at h
        cases h
        exact List.mem_cons_self _ _

theorem searchLeaderLoop_first (f : String → Option Bool)
    (pre : List String) (id : String) (post : List String)
    (hpre : ∀ n ∈ pre, f (MakeGrpcAddress n) ≠ some true)
    (hid : f (MakeGrpcAddress id) = some true) :
    (searchLeaderLoop f (pre ++ id :: post)).1 = .ok id := by
  induction pre with
  | nil => simp [searchLeaderLoop, hid]
  | cons n rest ih =>
    have hn := hpre n (by simp)
    have ihr := ih (fun m hm => hpre m (by simp [hm]))
    cases hf : f (MakeGrpcAddress n) with
    | none => simpa [searchLeaderLoop, hf] using ihr
    | some b =>
      cases b with
      | false => simpa [searchLeaderLoop, hf] using ihr
      | true => exact absurd hf hn

theorem searchLeaderLoop_error_iff (f : String → Option Bool)
    (nodes : List String) :
    (searchLeaderLoop f nodes).1 = .error ErrLeaderNotFound ↔
      ∀ n ∈ nodes, f (MakeGrpcAddress n) ≠ some true := by
  induction nodes with
  | nil => simp [searchLeaderLoop]
  | cons n rest ih =>
    cases hf : f (MakeGrpcAddress n) with
    | none => simp [searchLeaderLoop, hf, ih]
    | some b => cases b <;> simp [searchLeaderLoop, hf, ih]

theorem searchLeaderLoop_all_calls (f : String → Option Bool)
    (nodes : List String)
    (h : ∀ n ∈ nodes, f (MakeGrpcAddress n) ≠ some true) :
    searchLeaderLoop f nodes = (.error ErrLeaderNotFound, nodes.map MakeGrpcAddress) := by
  induction nodes with
  | nil => simp [searchLeaderLoop]
  | cons n rest ih =>
    have hn := h n (by simp)
    have ihr := ih (fun m hm => h m (by simp [hm]))
    cases hf : f (MakeGrpcAddress n) with
    | none => simp [searchLeaderLoop, hf, ihr]
    | some b =>
      cases b with
      | false => simp [searchLeaderLoop, hf, ihr]
      | true => exact absurd hf hn

/-! ## Helper lemmas for the store handlers -/

theorem storeSet_submits (p : Payload) (execute : Payload → Except String Unit) :
    (storeSet (.ok p) execute).2 = some { p with operation := "SET" } := by
  cases h : execute { p with operation := "SET" } <;> simp [storeSet, h]

theorem storeDelete_submits (p : Payload) (execute : Payload → Except String Unit) :
    (storeDelete (.ok p) execute).2 = some { p with operation := "DELETE" } := by
  cases h : execute { p with operation := "DELETE" } with
  | ok u => simp [storeDelete, h]
  | error e =>
    simp only [storeDelete, h]
    split <;> rfl

/-! ## Claim theorems -/

/-- C6: if the cluster configuration read from the engine already has at
least 2 servers, `startConsensus` returns success immediately and performs
no bootstrap and no join (empty action trace). -/
theorem startConsensus_resuming_noop (env : ConsensusEnv) (id : String)
    (h : env.servers.length ≥ 2) :
    startConsensus env id = (.ok (), []) := by
  simp [startConsensus, h]

/-- Witness for C6 at a concrete two-server configuration. -/
theorem startConsensus_resuming_noop_witness :
    startConsensus
      { servers := [{ id := "node1", address := "a" }, { id := "node2", address := "b" }],
        bootstrapErr := none, attempts := [], isLeader := fun _ => none,
        joinResult := Except.ok () } "node1"
      = (Except.ok (), []) :=
  startConsensus_resuming_noop _ "node1" (by decide)

/-- C7: the synthesized bootstrap configuration is exactly the three
servers `node1`, `node2`, `node3`, in that order, each paired with the
consensus address computed from its id by `MakeConsensusAddr`. -/
theorem bootstrappingServers_fixed_three :
    bootstrappingServers =
      [{ id := "node1", address := MakeConsensusAddr "node1" },
       { id := "node2", address := MakeConsensusAddr "node2" },
       { id := "node3", address := MakeConsensusAddr "node3" }] := by decide

/-- C1 counterexample: with an empty configuration, a bootstrap error
`disk failure` (which does not contain `not a voter`) and the local id
`node5` (not among `node1`, `node2`, `node3`), `startConsensus` returns
success having performed only the bootstrap attempt: it does not proceed
to the explicit join path, contrary to the claim. -/
theorem startConsensus_other_error_ignores_membership_cex :
    isNodePresentInServers "node5" bootstrappingServers = false
    ∧ containsSubstr "disk failure" "not a voter" = false
    ∧ startConsensus
        { servers := [], bootstrapErr := some "disk failure",
          attempts := [Except.ok ["node1"]], isLeader := fun _ => some true,
          joinResult := Except.ok () } "node5"
      = (Except.ok (), [NodeAction.bootstrap bootstrappingServers]) := by
  refine ⟨by decide, by decide, by decide⟩

/-- C1 (amended): when `bootstrapCluster` returns an error that does not
contain `not a voter`, `startConsensus` returns success unconditionally —
whether or not the local id is in the bootstrap list — performing only the
bootstrap attempt. -/
theorem startConsensus_other_error_returns_success (env : ConsensusEnv)
    (id e : String) (hs : env.servers.length < 2)
    (he : env.bootstrapErr = some e)
    (hn : containsSubstr e "not a voter" = false) :
    startConsensus env id = (.ok (), [NodeAction.bootstrap bootstrappingServers]) := by
  have hge : ¬ env.servers.length ≥ 2 := by omega
  simp [startConsensus, hge, he, hn]

/-- Witness for the amended C1 at a concrete input. -/
theorem startConsensus_other_error_returns_success_witness :
    startConsensus
      { servers := [], bootstrapErr := some "disk failure",
        attempts := [], isLeader := fun _ => none, joinResult := Except.ok () } "node9"
      = (Except.ok (), [NodeAction.bootstrap bootstrappingServers]) :=
  startConsensus_other_error_returns_success _ "node9" "disk failure"
    (by decide) rfl (by decide)

/-- C5: when `bootstrapCluster` fails with an error containing
`not a voter`, `startConsensus` proceeds to the explicit join: it searches
for a leader via discovery and calls `ConsensusJoin` with the local id,
the local consensus address and the found leader's RPC address. -/
theorem startConsensus_not_a_voter_joins (env : ConsensusEnv)
    (id e leaderID : String) (hs : env.servers.length < 2)
    (he : env.bootstrapErr = some e)
    (hv : containsSubstr e "not a voter" = true)
    (hl : SearchLeader id env.attempts env.isLeader = .ok leaderID) :
    startConsensus env id =
      (wrapJoin env.joinResult,
       [NodeAction.bootstrap bootstrappingServers,
        NodeAction.searchLeader id,
        NodeAction.consensusJoin id (MakeConsensusAddr id) (MakeGrpcAddress leaderID)]) := by
  have hge : ¬ env.servers.length ≥ 2 := by omega
  simp [startConsensus, hge, he, hv, joinNodeToExistingConsensus, hl]

/-- Witness for C5 at a concrete input. -/
theorem startConsensus_not_a_voter_joins_witness :
    startConsensus
      { servers := [], bootstrapErr := some "node is not a voter",
        attempts := [Except.ok ["node1."]], isLeader := fun _ => some true,
        joinResult := Except.ok () } "node4"
      = (Except.ok (),
         [NodeAction.bootstrap bootstrappingServers,
          NodeAction.searchLeader "node4",
          NodeAction.consensusJoin "node4" (MakeConsensusAddr "node4") (MakeGrpcAddress "node1")]) :=
  startConsensus_not_a_voter_joins _ "node4" "node is not a voter" "node1"
    (by decide) rfl (by decide) (by decide)

/-- C3: `SearchLeader` never returns the caller's own id: whatever the
query results and `IsLeader` answers, a returned id differs from
`currentNode`. -/
theorem searchLeader_never_returns_self (cn : String)
    (attempts : List (Except String (List String)))
    (f : String → Option Bool) (id : String)
    (h : SearchLeader cn attempts f = .ok id) : id ≠ cn := by
  unfold SearchLeader SearchLeaderT at h
  cases hsnd : (SearchNodes cn attempts).2 with
  | some e =>
    rw [hsnd] at h
    have h2 : (Except.error e : Except String String) = .ok id := h
    exact Except.noConfusion h2
  | none =>
    rw [hsnd] at h
    have h2 : (searchLeaderLoop f (SearchNodes cn attempts).1).1 = .ok id := h
    exact Ne.symm (searchNodes_mem_ne cn attempts id
      (searchLeaderLoop_ok_mem f ((SearchNodes cn attempts).1) id h2))

/-- Witness for C3: even when every peer claims leadership, the caller's
own id is not returned. -/
theorem searchLeader_never_returns_self_witness : ("node2" : String) ≠ "node1" :=
  searchLeader_never_returns_self "node1" [Except.ok ["node2"]]
    (fun _ => some true) "node2" (by decide)

/-- C4: when discovery reports no error, `SearchLeader` returns the first
discovered peer whose `IsLeader` call answers `true` (peers that cannot be
contacted, oracle `none`, and peers answering `false` are passed over),
and it returns the `ErrLeaderNotFound` error exactly when no reachable
peer reports being leader — in which case it has called `IsLeader` on
every discovered peer. -/
theorem searchLeader_first_leader_and_not_found (cn : String)
    (attempts : List (Except String (List String)))
    (f : String → Option Bool)
    (h : (SearchNodes cn attempts).2 = none) :
    (∀ pre id post, (SearchNodes cn attempts).1 = pre ++ id :: post →
        (∀ n ∈ pre, f (MakeGrpcAddress n) ≠ some true) →
        f (MakeGrpcAddress id) = some true →
        SearchLeader cn attempts f = .ok id)
    ∧ (SearchLeader cn attempts f = .error ErrLeaderNotFound ↔
        ∀ n ∈ (SearchNodes cn attempts).1, f (MakeGrpcAddress n) ≠ some true)
    ∧ ((∀ n ∈ (SearchNodes cn attempts).1, f (MakeGrpcAddress n) ≠ some true) →
        SearchLeaderT cn attempts f =
          (.error ErrLeaderNotFound, (SearchNodes cn attempts).1.map MakeGrpcAddress)) := by
  have hT : SearchLeaderT cn attempts f
      = searchLeaderLoop f (SearchNodes cn attempts).1 := by
    unfold SearchLeaderT
    rw [h]
  have hL : SearchLeader cn attempts f
      = (searchLeaderLoop f (SearchNodes cn attempts).1).1 := by
    unfold SearchLeader
    rw [hT]
  refine ⟨?_, ?_, ?_⟩
  · intro pre id post hsplit hpre hid
    rw [hL, hsplit]
    exact searchLeaderLoop_first f pre id post hpre hid
  · rw [hL]
    exact searchLeaderLoop_error_iff f ((SearchNodes cn attempts).1)
  · intro hall
    rw [hT]
    exact searchLeaderLoop_all_calls f ((SearchNodes cn attempts).1) hall

/-- Witness for C4: with two discovered peers where only the second is
leader, the second is returned. -/
theorem searchLeader_first_leader_and_not_found_witness :
    SearchLeader "node1" [Except.ok ["node2", "node3"]]
      (fun a => if a == MakeGrpcAddress "node3" then some true else some false)
      = .ok "node3" :=
  (searchLeader_first_leader_and_not_found "node1" [Except.ok ["node2", "node3"]]
      (fun a => if a == MakeGrpcAddress "node3" then some true else some false)
      (by decide)).1
    ["node2"] "node3" [] (by decide) (by decide) (by decide)

/-- C8: when some mDNS query attempt fails, `SearchNodes` returns the
error of the last failing attempt together with the hosts contributed by
the successful attempts, and `SearchLeader` then fails with that error
without making any `IsLeader` call (empty call trace), even when nodes
were discovered. -/
theorem searchNodes_last_error_and_searchLeader_aborts
    (cn e : String) (f : String → Option Bool)
    (pre post : List (Except String (List String)))
    (hpost : ∀ a ∈ post, isOkB a = true) :
    (SearchNodes cn (pre ++ .error e :: post)).2 = some e
    ∧ (SearchNodes cn (pre ++ .error e :: post)).1
        = (SearchNodes cn ((pre ++ .error e :: post).filter isOkB)).1
    ∧ SearchLeaderT cn (pre ++ .error e :: post) f = (.error e, []) := by
  have hsnd : (SearchNodes cn (pre ++ .error e :: post)).2 = some e := by
    simp only [SearchNodes]
    exact searchNodesGo_snd_last pre post e [] none hpost
  refine ⟨hsnd, ?_, ?_⟩
  · simp only [SearchNodes]
    rw [searchNodesGo_fst_filter (pre ++ .error e :: post) [] none none]
  · unfold SearchLeaderT
    rw [hsnd]

/-- Witness for C8: a failing middle attempt with discovered nodes around
it. -/
theorem searchNodes_last_error_and_searchLeader_aborts_witness :
    (SearchNodes "node1"
        ([Except.ok ["node2"]] ++ Except.error "mdns failed" :: [Except.ok ["node3"]])).2
      = some "mdns failed"
    ∧ (SearchNodes "node1"
        ([Except.ok ["node2"]] ++ Except.error "mdns failed" :: [Except.ok ["node3"]])).1
      = (SearchNodes "node1"
          (([Except.ok ["node2"]] ++ Except.error "mdns failed" :: [Except.ok ["node3"]]).filter
            isOkB)).1
    ∧ SearchLeaderT "node1"
        ([Except.ok ["node2"]] ++ Except.error "mdns failed" :: [Except.ok ["node3"]])
        (fun _ => some true)
      = (.error "mdns failed", []) :=
  searchNodes_last_error_and_searchLeader_aborts "node1" "mdns failed"
    (fun _ => some true) [Except.ok ["node2"]] [Except.ok ["node3"]] (by decide)

/-- C2 counterexample: a host name with an interior dot, `a.b.`, comes
back as id `ab` — the interior dot is removed too, contrary to the claim
that only a trailing dot is stripped and interior dots are preserved. -/
theorem searchNodes_interior_dots_cex :
    (SearchNodes "self" [Except.ok ["a.b."]]).1 = ["ab"]
    ∧ "a.b" ∉ (SearchNodes "self" [Except.ok ["a.b."]]).1 := by
  refine ⟨by decide, by decide⟩

/-- C2 (amended): every dot of a returned mDNS host name — trailing or
interior — is removed before de-duplication: each id returned by
`SearchNodes` is some reported raw name with all its dots removed, and so
contains no dot. -/
theorem searchNodes_removes_all_dots (cn h : String)
    (attempts : List (Except String (List String)))
    (hmem : h ∈ (SearchNodes cn attempts).1) :
    (∃ q raw, Except.ok q ∈ attempts ∧ raw ∈ q ∧ h = removeDots raw)
    ∧ ∀ c ∈ h.toList, c ≠ '.' := by
  have hscan : h ∈ (searchNodesGo [] none attempts).1 := by
    simp only [SearchNodes] at hmem
    exact (List.mem_filter.mp hmem).1
  rcases mem_searchNodesGo attempts [] none h hscan with hin | ⟨q, raw, hq, hraw, hEq⟩
  · exact absurd hin (List.not_mem_nil h)
  · refine ⟨⟨q, raw, hq, hraw, hEq⟩, ?_⟩
    rw [hEq]
    exact removeDots_no_dot raw

/-- Witness for the amended C2 at a concrete input. -/
theorem searchNodes_removes_all_dots_witness :
    (∃ q raw, (Except.ok q : Except String (List String))
        ∈ ([Except.ok ["a.b.c."]] : List (Except String (List String)))
      ∧ raw ∈ q ∧ "abc" = removeDots raw)
    ∧ ∀ c ∈ ("abc" : String).toList, c ≠ '.' :=
  searchNodes_removes_all_dots "self2" "abc" [Except.ok ["a.b.c."]] (by decide)

/-- C9: the payload submitted to `cluster.Execute` by `storeSet` always
has operation `SET` and the one submitted by `storeDelete` always has
operation `DELETE`; the operation supplied in the parsed request body is
overwritten, so the submitted payload does not depend on it. -/
theorem store_handlers_force_operation (p : Payload) (op : String)
    (execute : Payload → Except String Unit) :
    (storeSet (.ok p) execute).2 = some { p with operation := "SET" }
    ∧ (storeDelete (.ok p) execute).2 = some { p with operation := "DELETE" }
    ∧ (storeSet (.ok { p with operation := op }) execute).2
        = (storeSet (.ok p) execute).2
    ∧ (storeDelete (.ok { p with operation := op }) execute).2
        = (storeDelete (.ok p) execute).2 := by
  refine ⟨storeSet_submits p execute, storeDelete_submits p execute, ?_, ?_⟩
  · rw [storeSet_submits { p with operation := op } execute, storeSet_submits p execute]
  · rw [storeDelete_submits { p with operation := op } execute, storeDelete_submits p execute]

/-- C10: when the stored value bytes under a key are empty,
`DatabaseFSM.Get` returns the `no result for key` error rather than the
empty value, so the lookup fails exactly as for a lookup error: no value
is ever returned. -/
theorem get_empty_value_errors {α : Type} (dbFSM : DatabaseFSM)
    (unmarshal : List UInt8 → Except String α) (commit : Except String Unit)
    (k : String) (h : dbFSM.db k = some []) :
    DatabaseFSM.Get dbFSM unmarshal commit k = .error "no result for key"
    ∧ ∀ v : α, DatabaseFSM.Get dbFSM unmarshal commit k ≠ .ok v := by
  have hg : DatabaseFSM.Get dbFSM unmarshal commit k = .error "no result for key" := by
    simp [DatabaseFSM.Get, h]
  refine ⟨hg, fun v hv => ?_⟩
  rw [hg] at hv
  exact Except.noConfusion hv

/-- Witness for C10 at a concrete store holding an empty value. -/
theorem get_empty_value_errors_witness :
    DatabaseFSM.Get ⟨fun _ => some []⟩ (fun _ => Except.ok (0 : Nat)) (Except.ok ()) "k"
      = Except.error "no result for key"
    ∧ ∀ v : Nat,
      DatabaseFSM.Get ⟨fun _ => some []⟩ (fun _ => Except.ok (0 : Nat)) (Except.ok ()) "k"
        ≠ Except.ok v :=
  get_empty_value_errors ⟨fun _ => some []⟩ (fun _ => Except.ok (0 : Nat)) (Except.ok ()) "k" rfl

end Nube
